import Mathlib

/-!
Verification of the NinjaRobot movement core (`src/ninja_robot/movement.py`,
`hat_driver.py`, `sensors.py`, `brain.py`) against its natural-language
specification.  The Python code is shallowly embedded: pure numeric code
becomes Lean functions over `ℤ`/`ℚ` (Python float arithmetic is idealised as
exact rational arithmetic, `int(...)` as truncation toward zero), the
threaded gait machinery becomes an explicit small-step system over a `Sys`
state with an interleaving scheduler, and the I2C board becomes a pure
per-channel duty map.
-/

namespace Ninja

/-- Truncation toward zero, the behaviour of Python `int(...)` on a float. -/
def truncQ (q : ℚ) : ℤ := if 0 ≤ q then ⌊q⌋ else ⌈q⌉

/-- One channel's record in the calibration JSON file: each of the keys
`"min"`, `"center"`, `"max"` may be absent (`cal.get(...)` defaults). -/
structure RawCal where
  minF : Option ℤ
  centerF : Option ℤ
  maxF : Option ℤ
deriving DecidableEq

/-- The loaded calibration table (`self.calibration_data`), keyed by channel
number (the source keys by `str(channel)`). -/
abbrev CalTable := ℤ → Option RawCal

/-- `MovementController._map_angle`: maps a logical angle through the
per-channel calibration entry; identity when the channel has no entry. -/
def map_angle (cal : Option RawCal) (angle : ℤ) : ℤ :=
  match cal with
  | none => angle
  | some c =>
    let min_val : ℤ := c.minF.getD 0
    let center_val : ℤ := c.centerF.getD 90
    let max_val : ℤ := c.maxF.getD 180
    if angle = 90 then center_val
    else if angle = 0 then min_val
    else if angle = 180 then max_val
    else if angle < 90 then
      truncQ ((min_val : ℚ) + (center_val - min_val) * (angle : ℚ) / 90)
    else
      truncQ ((center_val : ℚ) + (max_val - center_val) * ((angle : ℚ) - 90) / 90)

/-- `MovementController._angle_to_duty`: `(0.5 + angle/90.0) / 20 * 100`. -/
def angle_to_duty (angle : ℤ) : ℚ := (0.5 + (angle : ℚ) / 90) / 20 * 100

/-- Reference definition of the calibrated angle map, written from the
spec's words (§4.1): special values at 0/90/180, otherwise the
integer-truncated linear interpolation on either side of 90. -/
def mapAngleSpec (mn c mx angle : ℤ) : ℤ :=
  if angle = 90 then c
  else if angle = 0 then mn
  else if angle = 180 then mx
  else if angle < 90 then truncQ ((mn : ℚ) + (c - mn) * (angle : ℚ) / 90)
  else truncQ ((c : ℚ) + (mx - c) * ((angle : ℚ) - 90) / 90)

/-- The exact (untruncated) piecewise-linear interpolation underlying
`_map_angle`, used to factor the monotonicity proof. -/
def interpQ (mn c mx : ℤ) (angle : ℤ) : ℚ :=
  if angle < 90 then (mn : ℚ) + (c - mn) * (angle : ℚ) / 90
  else (c : ℚ) + (mx - c) * ((angle : ℚ) - 90) / 90

lemma truncQ_intCast (n : ℤ) : truncQ (n : ℚ) = n := by
  unfold truncQ
  split <;> simp

lemma truncQ_mono {p q : ℚ} (h : p ≤ q) : truncQ p ≤ truncQ q := by
  unfold truncQ
  by_cases hp : 0 ≤ p
  · have hq : 0 ≤ q := le_trans hp h
    rw [if_pos hp, if_pos hq]
    exact Int.floor_le_floor h
  · rw [if_neg hp]
    by_cases hq : 0 ≤ q
    · rw [if_pos hq]
      have h1 : ⌈p⌉ ≤ 0 := Int.ceil_le.mpr (by push_cast; linarith [not_le.mp hp])
      have h2 : (0 : ℤ) ≤ ⌊q⌋ := Int.le_floor.mpr (by exact_mod_cast hq)
      omega
    · rw [if_neg hq]
      exact Int.ceil_le_ceil h

lemma map_angle_eq_trunc_interp (mn c mx angle : ℤ) :
    map_angle (some ⟨some mn, some c, some mx⟩) angle = truncQ (interpQ mn c mx angle) := by
  unfold map_angle interpQ
  simp only [Option.getD_some]
  by_cases h90 : angle = 90
  · subst h90
    norm_num [truncQ_intCast]
  · by_cases h0 : angle = 0
    · subst h0
      norm_num [truncQ_intCast]
    · by_cases h180 : angle = 180
      · subst h180
        have : (c : ℚ) + (mx - c) * ((180 : ℚ) - 90) / 90 = (mx : ℚ) := by ring
        simp [h90, h0, this, truncQ_intCast]
      · simp only [h90, h0, h180, if_false]
        by_cases hlt : angle < 90
        · rw [if_pos hlt, if_pos hlt]
        · rw [if_neg hlt, if_neg hlt]

lemma interpQ_mono {mn c mx : ℤ} (hmc : mn ≤ c) (hcm : c ≤ mx)
    {a b : ℤ} (hab : a ≤ b) (ha : 0 ≤ a) (hb : b ≤ 180) :
    interpQ mn c mx a ≤ interpQ mn c mx b := by
  have hmcQ : (mn : ℚ) ≤ (c : ℚ) := by exact_mod_cast hmc
  have hcmQ : (c : ℚ) ≤ (mx : ℚ) := by exact_mod_cast hcm
  have habQ : (a : ℚ) ≤ (b : ℚ) := by exact_mod_cast hab
  unfold interpQ
  by_cases hb90 : b < 90
  · have ha90 : a < 90 := lt_of_le_of_lt hab hb90
    rw [if_pos ha90, if_pos hb90]
    have : (c - mn : ℚ) * (a : ℚ) / 90 ≤ (c - mn : ℚ) * (b : ℚ) / 90 := by
      apply div_le_div_of_nonneg_right ?_ (by norm_num)
      exact mul_le_mul_of_nonneg_left habQ (by linarith)
    linarith
  · by_cases ha90 : a < 90
    · rw [if_pos ha90, if_neg hb90]
      have ha90Q : (a : ℚ) ≤ 90 := by
        have : a ≤ 90 := le_of_lt ha90
        exact_mod_cast this
      have h1 : (mn : ℚ) + (c - mn) * (a : ℚ) / 90 ≤ (c : ℚ) := by
        have : (c - mn : ℚ) * (a : ℚ) / 90 ≤ (c - mn : ℚ) := by
          rw [div_le_iff₀ (by norm_num : (0:ℚ) < 90)]
          have := mul_le_mul_of_nonneg_left ha90Q (by linarith : (0:ℚ) ≤ (c - mn : ℚ))
          linarith
        linarith
      have h2 : (c : ℚ) ≤ (c : ℚ) + (mx - c) * ((b : ℚ) - 90) / 90 := by
        have hb90Q : (90 : ℚ) ≤ (b : ℚ) := by
          have : (90:ℤ) ≤ b := by omega
          exact_mod_cast this
        have : (0 : ℚ) ≤ (mx - c : ℚ) * ((b : ℚ) - 90) / 90 := by
          apply div_nonneg ?_ (by norm_num)
          exact mul_nonneg (by linarith) (by linarith)
        linarith
      linarith
    · rw [if_neg ha90, if_neg hb90]
      have ha90Q : (90 : ℚ) ≤ (a : ℚ) := by
        have : (90:ℤ) ≤ a := by omega
        exact_mod_cast this
      have : (mx - c : ℚ) * ((a : ℚ) - 90) / 90 ≤ (mx - c : ℚ) * ((b : ℚ) - 90) / 90 := by
        apply div_le_div_of_nonneg_right ?_ (by norm_num)
        exact mul_le_mul_of_nonneg_left (by linarith) (by linarith)
      linarith

/-! ## Board driver (`hat_driver.py`) and servo commands -/

/-- The PWM board state: the duty cycle last written to each driver channel
(1-4); `none` when a channel was never written. -/
abbrev Board := ℤ → Option ℚ

/-- `ExpansionBoard.set_pwm_duty`: validates channel (1-4) and duty
([0,100]); an invalid argument is logged and the write is skipped. -/
def set_pwm_duty (b : Board) (channel : ℤ) (duty : ℚ) : Board :=
  if ¬ (1 ≤ channel ∧ channel ≤ 4) then b
  else if ¬ (0 ≤ duty ∧ duty ≤ 100) then b
  else fun x => if x = channel then some duty else b x

/-- `MovementController.move_servo`: clamps an out-of-range angle to
[0,180], applies the calibration map, converts to a duty cycle and issues
one `set_pwm_duty` call on driver channel `channel + 1`.  Returns the new
board and the single issued command `(driver_channel, duty)`. -/
def move_servo (cal : CalTable) (b : Board) (channel angle : ℤ) : Board × (ℤ × ℚ) :=
  let a := if ¬ (0 ≤ angle ∧ angle ≤ 180) then max 0 (min 180 angle) else angle
  let mapped := map_angle (cal channel) a
  let duty := angle_to_duty mapped
  (set_pwm_duty b (channel + 1) duty, (channel + 1, duty))

/-- A board command in the observable trace: issuing thread tag
(0 = caller context, ≥ 1 = gait threads), driver channel, duty. -/
abbrev Cmd := ℕ × ℤ × ℚ

/-- Issue a lock-grouped list of `(channel, logical angle)` servo moves,
collecting the issued commands tagged with the issuing thread. -/
def applyWrites (cal : CalTable) (tag : ℕ) (b : Board) :
    List (ℤ × ℤ) → Board × List Cmd
  | [] => (b, [])
  | (ch, a) :: ws =>
    let r := move_servo cal b ch a
    let rest := applyWrites cal tag r.1 ws
    (rest.1, (tag, r.2.1, r.2.2) :: rest.2)

/-- Servo channel layout from `config.py`: s1 = left leg = 0,
s2 = right leg = 1, s3 = left foot = 2, s4 = right foot = 3. -/
def standWrites : List (ℤ × ℤ) := [(0, 90), (1, 90), (2, 90), (3, 90)]

/-- `MovementController.reset_servos`: all four servos to logical 90. -/
def reset_servos (cal : CalTable) (tag : ℕ) (b : Board) : Board × List Cmd :=
  applyWrites cal tag b standWrites

/-! ## Gait loops as action sequences (`movement.py`) -/

/-- One atomic step of a gait loop body: the top-of-iteration obstacle
check, a mid-iteration `_stop_event` check, or one lock-grouped phase of
servo writes (the sleeps between phases carry no state). -/
inductive GaitAction where
  | obstacleGate : GaitAction
  | stopGate : GaitAction
  | phase : List (ℤ × ℤ) → GaitAction
deriving DecidableEq

/-- `_get_walk_params`: `(step_delay, foot_delay, lift_adjustment)`. -/
def get_walk_params (speed : String) : ℚ × ℚ × ℤ :=
  if speed = "fast" then (0.15, 0.3, 5)
  else if speed = "slow" then (0.4, 0.7, -5)
  else (0.25, 0.5, 0)

/-- `_get_run_params`: wheel-mode angle offset per speed tier. -/
def get_run_params (speed : String) : ℤ :=
  if speed = "fast" then 40
  else if speed = "slow" then 15
  else 25

/-- Loop body of `_walk_loop` (one iteration). -/
def walkBody (lift : ℤ) : List GaitAction :=
  [ .obstacleGate,
    .phase [(0, 60 - lift)],
    .phase [(1, 150 + lift)],
    .stopGate,
    .phase [(2, 110), (3, 70)],
    .phase [(2, 90), (3, 90)],
    .stopGate,
    .phase [(0, 90), (1, 90)],
    .stopGate,
    .phase [(1, 120 + lift)],
    .phase [(0, 30 + lift)],
    .stopGate,
    .phase [(2, 110), (3, 70)],
    .phase [(2, 90), (3, 90)],
    .stopGate,
    .phase [(0, 90), (1, 90)] ]

/-- Loop body of `_stepback_loop` (one iteration). -/
def stepbackBody (lift : ℤ) : List GaitAction :=
  [ .obstacleGate,
    .phase [(1, 120 + lift)],
    .phase [(0, 30 + lift)],
    .stopGate,
    .phase [(2, 70), (3, 110)],
    .phase [(2, 90), (3, 90)],
    .stopGate,
    .phase [(0, 90), (1, 90)],
    .stopGate,
    .phase [(0, 60 - lift)],
    .phase [(1, 150 - lift)],
    .stopGate,
    .phase [(2, 70), (3, 110)],
    .phase [(2, 90), (3, 90)],
    .stopGate,
    .phase [(0, 90), (1, 90)] ]

/-- Loop body of `_run_loop` (one iteration): obstacle gate, then one
oscillation write pair with `right = 90 + off`, `left = 90 - off`. -/
def runBody (off : ℤ) : List GaitAction :=
  [ .obstacleGate, .phase [(2, 90 + off), (3, 90 - off)] ]

/-- Loop body of `_runback_loop`: `right = 90 - off`, `left = 90 + off`. -/
def runbackBody (off : ℤ) : List GaitAction :=
  [ .obstacleGate, .phase [(2, 90 - off), (3, 90 + off)] ]

/-- Loop body of `_rotate_left_loop`: two write pairs with
`right = left = 90 - off`; the source has no obstacle gate here. -/
def rotateLeftBody (off : ℤ) : List GaitAction :=
  [ .phase [(2, 90 - off), (3, 90 - off)],
    .phase [(2, 90 - off), (3, 90 - off)] ]

/-- Loop body of `_rotate_right_loop`: two write pairs with
`right = left = 90 + off`; the source has no obstacle gate here. -/
def rotateRightBody (off : ℤ) : List GaitAction :=
  [ .phase [(2, 90 + off), (3, 90 + off)],
    .phase [(2, 90 + off), (3, 90 + off)] ]

/-- The six continuous gaits. -/
inductive GaitName where
  | walk | stepback | run | runback | rotateLeft | rotateRight
deriving DecidableEq

/-- The per-iteration body of each gait loop. -/
def gaitBody (g : GaitName) (speed : String) : List GaitAction :=
  match g with
  | .walk => walkBody (get_walk_params speed).2.2
  | .stepback => stepbackBody (get_walk_params speed).2.2
  | .run => runBody (get_run_params speed)
  | .runback => runbackBody (get_run_params speed)
  | .rotateLeft => rotateLeftBody (get_run_params speed)
  | .rotateRight => rotateRightBody (get_run_params speed)

/-- The one-off pose written before each wheel-mode loop is entered. -/
def gaitPrologue (g : GaitName) : List GaitAction :=
  match g with
  | .walk => []
  | .stepback => []
  | .run => [.phase [(0, 0), (1, 180)]]
  | .runback => [.phase [(0, 0), (1, 180)]]
  | .rotateLeft => [.phase [(0, 15), (1, 180)]]
  | .rotateRight => [.phase [(0, 15), (1, 180)]]

/-- A live gait thread: its id, its loop body (reloaded each iteration at
the `while not self._stop_event.is_set()` check) and the actions remaining
in the current iteration (initially the prologue). -/
structure ThreadSt where
  tid : ℕ
  body : List GaitAction
  rem : List GaitAction
deriving DecidableEq

/-- The movement system state: calibration table, installed obstacle
predicate and its current value, the `_stop_event` flag, the board, the
live gait threads, and the trace of issued board commands. -/
structure Sys where
  cal : CalTable
  obstacleInstalled : Bool
  obstacleVal : Bool
  stopEvent : Bool
  board : Board
  threads : List ThreadSt
  trace : List Cmd

/-- Execute one action of one thread: returns the surviving thread (if
any), the new board, and the commands issued.  An empty `rem` is the
`while` gate: exit if the stop event is set, else reload the body. -/
def stepThreadCore (obsI obsV stopEv : Bool) (cal : CalTable) (b : Board)
    (t : ThreadSt) : Option ThreadSt × Board × List Cmd :=
  match t.rem with
  | [] =>
    if stopEv then (none, b, [])
    else (some { t with rem := t.body }, b, [])
  | .stopGate :: rest =>
    if stopEv then (none, b, [])
    else (some { t with rem := rest }, b, [])
  | .obstacleGate :: rest =>
    if obsI && obsV then
      let r := reset_servos cal t.tid b
      (none, r.1, r.2)
    else (some { t with rem := rest }, b, [])
  | .phase ws :: rest =>
    let r := applyWrites cal t.tid b ws
    (some { t with rem := rest }, r.1, r.2)

/-- Scheduler step: run one action of the thread with id `i` (no-op when
no such thread is live). -/
def step (s : Sys) (i : ℕ) : Sys :=
  match s.threads.find? (fun t => t.tid == i) with
  | none => s
  | some t =>
    let r := stepThreadCore s.obstacleInstalled s.obstacleVal s.stopEvent s.cal s.board t
    { s with
      board := r.2.1
      trace := s.trace ++ r.2.2
      threads := (s.threads.filter (fun u => u.tid != i)) ++
        (match r.1 with | none => [] | some t' => [t']) }

/-- Run a schedule: an arbitrary interleaving of thread steps. -/
def sched_run (s : Sys) (sched : List ℕ) : Sys := sched.foldl step s

/-- `MovementController.stop`: set the stop event, wait (bounded) for the
gait thread — modelled by running an arbitrary schedule, which captures
both a successful join (the schedule drives the thread to exit) and a
join timeout (it does not) — then unconditionally reset all servos from
the caller context (tag 0). -/
def stopOp (s : Sys) (sched : List ℕ) : Sys :=
  let s1 := sched_run { s with stopEvent := true } sched
  let r := reset_servos s1.cal 0 s1.board
  { s1 with board := r.1, trace := s1.trace ++ r.2 }

/-- `MovementController._start_thread`: stop any existing movement, clear
the stop event, then launch the new gait thread. -/
def start_thread (s : Sys) (sched : List ℕ) (newTid : ℕ) (g : GaitName)
    (speed : String) : Sys :=
  let s1 := stopOp s sched
  let s2 := { s1 with stopEvent := false }
  { s2 with threads := s2.threads ++ [⟨newTid, gaitBody g speed, gaitPrologue g⟩] }

/-- The three lock-grouped phases of `turn_left_step`. -/
def turnLeftPhases (lift : ℤ) : List (List (ℤ × ℤ)) :=
  [ [(0, 125 - lift)], [(2, 120), (3, 120)], [(2, 90), (3, 90), (0, 90)] ]

/-- The three lock-grouped phases of `turn_right_step`. -/
def turnRightPhases (lift : ℤ) : List (List (ℤ × ℤ)) :=
  [ [(1, 70 + lift)], [(2, 60), (3, 60)], [(2, 90), (3, 90), (1, 105)] ]

/-- Issue a list of phases synchronously on the caller context (tag 0). -/
def applyPhases (s : Sys) : List (List (ℤ × ℤ)) → Sys
  | [] => s
  | ws :: ps =>
    let r := applyWrites s.cal 0 s.board ws
    applyPhases { s with board := r.1, trace := s.trace ++ r.2 } ps

/-- `MovementController.turn_left_step`: calls `self.stop()` first, then
performs its three phases synchronously. -/
def turn_left_step (speed : String) (s : Sys) (sched : List ℕ) : Sys :=
  applyPhases (stopOp s sched) (turnLeftPhases (get_walk_params speed).2.2)

/-- `MovementController.turn_right_step`: calls `self.stop()` first, then
performs its three phases synchronously. -/
def turn_right_step (speed : String) (s : Sys) (sched : List ℕ) : Sys :=
  applyPhases (stopOp s sched) (turnRightPhases (get_walk_params speed).2.2)

/-! ## Ultrasonic sensor (`sensors.py`) and the brain's obstacle predicate
(`brain.py`) -/

/-- Python `round(x)` (banker's rounding, half to even). -/
def roundHalfEven (q : ℚ) : ℤ :=
  if q - ⌊q⌋ < 1/2 then ⌊q⌋
  else if 1/2 < q - ⌊q⌋ then ⌊q⌋ + 1
  else if 2 ∣ ⌊q⌋ then ⌊q⌋ else ⌊q⌋ + 1

/-- Python `round(x, 2)`. -/
def round2 (q : ℚ) : ℚ := (roundHalfEven (q * 100) : ℚ) / 100

/-- The environment one call of `SensorManager.measure_distance` sees:
whether GPIO initialisation succeeded, whether the GPIO library is
available (otherwise mock mode), whether either echo wait timed out,
whether a GPIO exception fired, and the measured echo pulse duration in
seconds. -/
structure SensorEnv where
  initialized : Bool
  gpioAvailable : Bool
  echoTimeout : Bool
  fault : Bool
  duration : ℚ

/-- `SensorManager.measure_distance`: `-2.0` when uninitialised or on an
exception, `50.0` in mock mode, `-1.0` on echo timeout, otherwise
`round(duration * 34300 / 2, 2)` centimetres. -/
def measure_distance (e : SensorEnv) : ℚ :=
  if e.initialized = false then -2
  else if e.gpioAvailable = false then 50
  else if e.fault = true then -2
  else if e.echoTimeout = true then -1
  else round2 (e.duration * 34300 / 2)

/-- The obstacle predicate installed by `RobotBrain.initialize`
(`check_obstacle`): true iff `0 < dist < 5`. -/
def check_obstacle (e : SensorEnv) : Bool :=
  let dist := measure_distance e
  decide (0 < dist ∧ dist < 5)

/-- A reading is valid when the sensor is initialised, real GPIO is in
use, and neither a timeout nor a fault occurred. -/
def validReading (e : SensorEnv) : Bool :=
  e.initialized && e.gpioAvailable && !e.fault && !e.echoTimeout

/-! ## Controller construction (`MovementController.__init__`) -/

/-- The calibration-loading part of `__init__`: the table starts empty,
and is replaced by the parsed file contents only when the file exists and
`json.load` succeeds (`parsed = some table`); a parse failure is caught
and logged. -/
def init_calibration (fileExists : Bool) (parsed : Option CalTable) : CalTable :=
  if fileExists then
    match parsed with
    | some t => t
    | none => fun _ => none
  else fun _ => none

/-- `MovementController.__init__` outcome: construction fails only when
`board.begin()` fails; the calibration table is as loaded above. -/
def mkControllerCal (beginOk : Bool) (fileExists : Bool)
    (parsed : Option CalTable) : Option CalTable :=
  if beginOk then some (init_calibration fileExists parsed) else none

/-! ## Helper lemmas -/

lemma map_angle_const (v a : ℤ) :
    map_angle (some ⟨some v, some v, some v⟩) a = v := by
  unfold map_angle
  simp only [Option.getD_some]
  have hz : ((v : ℚ) - v) = 0 := by ring
  split_ifs <;>
    simp only [hz, zero_mul, zero_div, add_zero, truncQ_intCast]

lemma set_pwm_duty_apply (b : Board) (ch : ℤ) (d : ℚ) (x : ℤ) :
    set_pwm_duty b ch d x =
      if x = ch ∧ 1 ≤ ch ∧ ch ≤ 4 ∧ 0 ≤ d ∧ d ≤ 100 then some d else b x := by
  unfold set_pwm_duty
  by_cases hch : 1 ≤ ch ∧ ch ≤ 4
  · by_cases hd : 0 ≤ d ∧ d ≤ 100
    · rw [if_neg (not_not_intro hch), if_neg (not_not_intro hd)]
      show (if x = ch then some d else b x) = _
      by_cases hx : x = ch
      · rw [if_pos hx, if_pos ⟨hx, hch.1, hch.2, hd.1, hd.2⟩]
      · rw [if_neg hx, if_neg (by tauto)]
    · rw [if_neg (not_not_intro hch), if_pos hd, if_neg (by tauto)]
  · rw [if_pos hch, if_neg (by tauto)]

lemma reset_board (cal : CalTable) (tag : ℕ) (b : Board) :
    (reset_servos cal tag b).1 =
      set_pwm_duty (set_pwm_duty (set_pwm_duty (set_pwm_duty b 1
        (angle_to_duty (map_angle (cal 0) 90))) 2
        (angle_to_duty (map_angle (cal 1) 90))) 3
        (angle_to_duty (map_angle (cal 2) 90))) 4
        (angle_to_duty (map_angle (cal 3) 90)) := rfl

lemma reset_board_idem (cal : CalTable) (tag tag' : ℕ) (b : Board) :
    (reset_servos cal tag' (reset_servos cal tag b).1).1 =
      (reset_servos cal tag b).1 := by
  funext x
  rw [reset_board, reset_board]
  simp only [set_pwm_duty_apply]
  split_ifs <;> rfl

lemma step_no_threads (s : Sys) (h : s.threads = []) (i : ℕ) : step s i = s := by
  unfold step
  rw [h]
  rfl

lemma sched_run_no_threads (s : Sys) (h : s.threads = []) (L : List ℕ) :
    sched_run s L = s := by
  induction L with
  | nil => rfl
  | cons i L ih =>
    show sched_run (step s i) L = s
    rw [step_no_threads s h i]
    exact ih

lemma step_stopEvent (s : Sys) (i : ℕ) : (step s i).stopEvent = s.stopEvent := by
  unfold step
  cases s.threads.find? (fun t => t.tid == i) <;> rfl

lemma step_cal (s : Sys) (i : ℕ) : (step s i).cal = s.cal := by
  unfold step
  cases s.threads.find? (fun t => t.tid == i) <;> rfl

lemma sched_run_stopEvent (L : List ℕ) : ∀ s : Sys,
    (sched_run s L).stopEvent = s.stopEvent := by
  induction L with
  | nil => intro s; rfl
  | cons i L ih =>
    intro s
    show (sched_run (step s i) L).stopEvent = _
    rw [ih, step_stopEvent]

lemma sched_run_cal (L : List ℕ) : ∀ s : Sys, (sched_run s L).cal = s.cal := by
  induction L with
  | nil => intro s; rfl
  | cons i L ih =>
    intro s
    show (sched_run (step s i) L).cal = _
    rw [ih, step_cal]

lemma applyPhases_stopEvent (ps : List (List (ℤ × ℤ))) : ∀ s : Sys,
    (applyPhases s ps).stopEvent = s.stopEvent := by
  induction ps with
  | nil => intro s; rfl
  | cons ws ps ih => intro s; exact ih _

lemma stopOp_stopEvent (s : Sys) (sched : List ℕ) :
    (stopOp s sched).stopEvent = true := by
  unfold stopOp
  show (sched_run _ sched).stopEvent = true
  rw [sched_run_stopEvent]

lemma applyPhases_threads (ps : List (List (ℤ × ℤ))) : ∀ s : Sys,
    (applyPhases s ps).threads = s.threads := by
  induction ps with
  | nil => intro s; rfl
  | cons ws ps ih => intro s; exact ih _

lemma applyWrites_tags (cal : CalTable) (tag : ℕ) (ws : List (ℤ × ℤ)) :
    ∀ (b : Board) (e : Cmd), e ∈ (applyWrites cal tag b ws).2 → e.1 = tag := by
  induction ws with
  | nil => intro b e he; simp [applyWrites] at he
  | cons w ws ih =>
    intro b e he
    rcases w with ⟨ch, a⟩
    simp only [applyWrites, List.mem_cons] at he
    rcases he with rfl | he
    · rfl
    · exact ih _ e he

lemma applyPhases_trace (ps : List (List (ℤ × ℤ))) : ∀ (s : Sys),
    ∀ e ∈ (applyPhases s ps).trace, e ∈ s.trace ∨ e.1 = 0 := by
  induction ps with
  | nil => intro s e he; exact Or.inl he
  | cons ws ps ih =>
    intro s e he
    have he' : e ∈ (applyPhases { s with
        board := (applyWrites s.cal 0 s.board ws).1
        trace := s.trace ++ (applyWrites s.cal 0 s.board ws).2 } ps).trace := he
    rcases ih _ e he' with h1 | h1
    · rcases List.mem_append.mp h1 with h2 | h2
      · exact Or.inl h2
      · exact Or.inr (applyWrites_tags s.cal 0 ws s.board e h2)
    · exact Or.inr h1

lemma stepThreadCore_tags (oI oV se : Bool) (cal : CalTable) (b : Board)
    (t : ThreadSt) : ∀ e ∈ (stepThreadCore oI oV se cal b t).2.2, e.1 = t.tid := by
  obtain ⟨tid, body, rem⟩ := t
  intro e he
  rcases rem with _ | ⟨a, rest⟩
  · simp only [stepThreadCore] at he
    split_ifs at he <;> simp at he
  · cases a with
    | stopGate =>
      simp only [stepThreadCore] at he
      split_ifs at he <;> simp at he
    | obstacleGate =>
      simp only [stepThreadCore] at he
      split_ifs at he
      · exact applyWrites_tags cal tid standWrites b e he
      · simp at he
    | phase ws =>
      simp only [stepThreadCore] at he
      exact applyWrites_tags cal tid ws b e he

lemma stepThreadCore_tid (oI oV se : Bool) (cal : CalTable) (b : Board)
    (t t' : ThreadSt) (h : (stepThreadCore oI oV se cal b t).1 = some t') :
    t'.tid = t.tid := by
  obtain ⟨tid, body, rem⟩ := t
  rcases rem with _ | ⟨a, rest⟩
  · simp only [stepThreadCore] at h
    split_ifs at h
    all_goals first
      | (simp at h; done)
      | (cases h; rfl)
  · cases a with
    | stopGate =>
      simp only [stepThreadCore] at h
      split_ifs at h
      all_goals first
        | (simp at h; done)
        | (cases h; rfl)
    | obstacleGate =>
      simp only [stepThreadCore] at h
      split_ifs at h
      all_goals first
        | (simp at h; done)
        | (cases h; rfl)
    | phase ws =>
      simp only [stepThreadCore] at h
      obtain rfl : (⟨tid, body, rest⟩ : ThreadSt) = t' := by simpa using h
      rfl

lemma step_tids (s : Sys) (i : ℕ) (n : ℕ) (h : ∀ t ∈ s.threads, t.tid = n) :
    ∀ t' ∈ (step s i).threads, t'.tid = n := by
  intro t' ht'
  unfold step at ht'
  cases hf : s.threads.find? (fun t => t.tid == i) with
  | none => rw [hf] at ht'; exact h t' ht'
  | some t =>
    rw [hf] at ht'
    simp only [List.mem_append] at ht'
    rcases ht' with ht' | ht'
    · exact h t' (List.mem_of_mem_filter ht')
    · cases hc : (stepThreadCore s.obstacleInstalled s.obstacleVal s.stopEvent
          s.cal s.board t).1 with
      | none => rw [hc] at ht'; simp at ht'
      | some u =>
        rw [hc] at ht'
        have hu : t' = u := by simpa using ht'
        have htid := stepThreadCore_tid _ _ _ _ _ t u hc
        rw [hu, htid]
        exact h t (List.mem_of_find?_eq_some hf)

lemma step_trace_src (s : Sys) (i : ℕ) (e : Cmd) (he : e ∈ (step s i).trace) :
    e ∈ s.trace ∨ ∃ t ∈ s.threads, e.1 = t.tid := by
  unfold step at he
  cases hf : s.threads.find? (fun t => t.tid == i) with
  | none => rw [hf] at he; exact Or.inl he
  | some t =>
    rw [hf] at he
    simp only [List.mem_append] at he
    rcases he with he | he
    · exact Or.inl he
    · exact Or.inr ⟨t, List.mem_of_find?_eq_some hf,
        stepThreadCore_tags _ _ _ _ _ t e he⟩

lemma sched_run_trace_src (L : List ℕ) : ∀ (s : Sys) (n : ℕ),
    (∀ t ∈ s.threads, t.tid = n) →
    ∀ e ∈ (sched_run s L).trace, e ∈ s.trace ∨ e.1 = n := by
  induction L with
  | nil => intro s n _ e he; exact Or.inl he
  | cons i L ih =>
    intro s n h e he
    have h' : ∀ t ∈ (step s i).threads, t.tid = n := step_tids s i n h
    rcases ih (step s i) n h' e he with h1 | h1
    · rcases step_trace_src s i e h1 with h2 | ⟨t, ht, h2⟩
      · exact Or.inl h2
      · exact Or.inr (h2.trans (h t ht))
    · exact Or.inr h1

/-! ## Claim theorems -/

/-- C4: `_map_angle` equals the spec's reference definition (center at 90,
min at 0, max at 180, truncated linear interpolation elsewhere, identity
without a calibration entry; `{min:70, center:95, max:150}` maps 45 to
82), and `_angle_to_duty` is the pure map `(0.5 + angle/90) / 20 * 100`. -/
theorem C4_angle_mapper_matches_reference :
    (∀ (r : RawCal) (a : ℤ),
        map_angle (some r) a =
          mapAngleSpec (r.minF.getD 0) (r.centerF.getD 90) (r.maxF.getD 180) a) ∧
    (∀ a : ℤ, map_angle none a = a) ∧
    map_angle (some ⟨some 70, some 95, some 150⟩) 45 = 82 ∧
    (∀ a : ℤ, angle_to_duty a = (1 / 2 + (a : ℚ) / 90) / 20 * 100) := by
  refine ⟨fun r a => rfl, fun a => rfl, ?_, fun a => by norm_num [angle_to_duty]⟩
  rw [map_angle_eq_trunc_interp]
  have h1 : interpQ 70 95 150 45 = 165 / 2 := by norm_num [interpQ]
  rw [h1]
  unfold truncQ
  rw [if_pos (by norm_num)]
  rw [Int.floor_eq_iff]
  norm_num

/-- C5: with `min < center < max`, the calibrated angle map is monotone
non-decreasing over logical angles 0..180, across the 90° boundary and
despite integer truncation. -/
theorem C5_calibrated_map_monotone :
    ∀ (mn c mx : ℤ), mn < c → c < mx →
    ∀ a b : ℤ, 0 ≤ a → a ≤ b → b ≤ 180 →
    map_angle (some ⟨some mn, some c, some mx⟩) a ≤
      map_angle (some ⟨some mn, some c, some mx⟩) b := by
  intro mn c mx hmc hcm a b ha hab hb
  rw [map_angle_eq_trunc_interp, map_angle_eq_trunc_interp]
  exact truncQ_mono (interpQ_mono (le_of_lt hmc) (le_of_lt hcm) hab ha hb)

/-- Witness for C5 at the calibration triple (70, 95, 150), angles 45 ≤ 135. -/
theorem C5_calibrated_map_monotone_witness :
    ((70 : ℤ) < 95 ∧ (95 : ℤ) < 150 ∧ (0 : ℤ) ≤ 45 ∧ (45 : ℤ) ≤ 135 ∧
      (135 : ℤ) ≤ 180) ∧
    map_angle (some ⟨some 70, some 95, some 150⟩) 45 ≤
      map_angle (some ⟨some 70, some 95, some 150⟩) 135 :=
  ⟨by norm_num,
    C5_calibrated_map_monotone 70 95 150 (by norm_num) (by norm_num)
      45 135 (by norm_num) (by norm_num) (by norm_num)⟩

/-- C7: `move_servo` is total and behaves exactly like `move_servo` on the
angle clamped to [0,180]: same board effect, and the single issued command
carries the calibration-mapped duty of the clamped angle. -/
theorem C7_move_servo_clamps :
    ∀ (cal : CalTable) (b : Board) (ch a : ℤ),
      move_servo cal b ch a = move_servo cal b ch (max 0 (min 180 a)) ∧
      (move_servo cal b ch a).2 =
        (ch + 1, angle_to_duty (map_angle (cal ch) (max 0 (min 180 a)))) := by
  intro cal b ch a
  have hrange : 0 ≤ max 0 (min 180 a) ∧ max 0 (min 180 a) ≤ 180 :=
    ⟨le_max_left 0 _, max_le (by norm_num) (min_le_left _ _)⟩
  have hcl : (if ¬ (0 ≤ a ∧ a ≤ 180) then max 0 (min 180 a) else a) =
      max 0 (min 180 a) := by
    by_cases h : 0 ≤ a ∧ a ≤ 180
    · rw [if_neg (not_not_intro h), min_eq_right h.2, max_eq_right h.1]
    · rw [if_pos h]
  constructor
  · show (let a' := if ¬ (0 ≤ a ∧ a ≤ 180) then max 0 (min 180 a) else a
          (set_pwm_duty b (ch + 1) (angle_to_duty (map_angle (cal ch) a')),
            (ch + 1, angle_to_duty (map_angle (cal ch) a')))) = _
    rw [hcl]
    unfold move_servo
    rw [if_neg (not_not_intro hrange)]
  · show (ch + 1,
        angle_to_duty (map_angle (cal ch)
          (if ¬ (0 ≤ a ∧ a ≤ 180) then max 0 (min 180 a) else a))) = _
    rw [hcl]

/-- C9: `set_pwm_duty` drops writes with a channel outside 1..4 or a duty
outside [0,100]; hence `move_servo` on logical channel 4 (driver channel
5) or with a calibration whose mapped duty is negative leaves the board
untouched. -/
theorem C9_invalid_writes_dropped :
    (∀ (b : Board) (ch : ℤ) (d : ℚ),
        ¬ (1 ≤ ch ∧ ch ≤ 4) ∨ ¬ (0 ≤ d ∧ d ≤ 100) → set_pwm_duty b ch d = b) ∧
    (∀ (cal : CalTable) (b : Board) (a : ℤ), (move_servo cal b 4 a).1 = b) ∧
    (∀ (b : Board) (a : ℤ),
        (move_servo (fun _ => some ⟨some (-90), some (-90), some (-90)⟩)
          b 0 a).1 = b) := by
  refine ⟨?_, ?_, ?_⟩
  · intro b ch d h
    unfold set_pwm_duty
    rcases h with h | h
    · rw [if_pos h]
    · by_cases hc : 1 ≤ ch ∧ ch ≤ 4
      · rw [if_neg (not_not_intro hc), if_pos h]
      · rw [if_pos hc]
  · intro cal b a
    have h : (move_servo cal b 4 a).1 =
        set_pwm_duty b 5 (angle_to_duty (map_angle (cal 4)
          (if ¬ (0 ≤ a ∧ a ≤ 180) then max 0 (min 180 a) else a))) := rfl
    rw [h]
    unfold set_pwm_duty
    rw [if_pos (by norm_num)]
  · intro b a
    have h : (move_servo (fun _ => some ⟨some (-90), some (-90), some (-90)⟩)
          b 0 a).1 =
        set_pwm_duty b 1 (angle_to_duty
          (map_angle (some ⟨some (-90), some (-90), some (-90)⟩)
            (if ¬ (0 ≤ a ∧ a ≤ 180) then max 0 (min 180 a) else a))) := rfl
    rw [h, map_angle_const]
    unfold set_pwm_duty angle_to_duty
    rw [if_neg (by norm_num), if_pos (by norm_num)]

/-- Witness for C9's first conjunct at channel 5, duty 50. -/
theorem C9_invalid_writes_dropped_witness :
    (¬ ((1:ℤ) ≤ 5 ∧ (5:ℤ) ≤ 4) ∨ ¬ ((0:ℚ) ≤ 50 ∧ (50:ℚ) ≤ 100)) ∧
    set_pwm_duty (fun _ => none) 5 50 = (fun _ => none) :=
  ⟨Or.inl (by norm_num),
    C9_invalid_writes_dropped.1 (fun _ => none) 5 50 (Or.inl (by norm_num))⟩

/-- C10: a missing or unparsable calibration file still yields a
controller (construction succeeds) with an empty table, so the angle map
is the identity on every channel; and within a present entry the absent
fields `min`/`center`/`max` individually default to 0, 90 and 180. -/
theorem C10_calibration_defaults :
    (∀ parsed : Option CalTable, (mkControllerCal true false parsed).isSome = true) ∧
    (∀ fe : Bool, (mkControllerCal true fe none).isSome = true) ∧
    (∀ (parsed : Option CalTable) (ch a : ℤ),
        map_angle (init_calibration false parsed ch) a = a) ∧
    (∀ (fe : Bool) (ch a : ℤ), map_angle (init_calibration fe none ch) a = a) ∧
    (∀ (mo co mxo : Option ℤ) (a : ℤ),
        map_angle (some ⟨mo, co, mxo⟩) a =
          map_angle (some ⟨some (mo.getD 0), some (co.getD 90),
            some (mxo.getD 180)⟩) a) := by
  refine ⟨fun parsed => rfl, ?_, fun parsed ch a => rfl, ?_, fun mo co mxo a => rfl⟩
  · intro fe
    cases fe <;> rfl
  · intro fe ch a
    cases fe <;> rfl

/-- C3: in EVERY controller state — gait running or not, join succeeded
or not — `stop()` performs the servo reset last, over whatever board the
(possibly unjoined) gait context left, so all four channels end commanded
to logical 90 (the stand duties land on driver channels 1-4 whenever in
range); and with no gait running a second `stop()` leaves the exact same
board. -/
theorem C3_stop_idempotent :
    ∀ (s : Sys) (sched : List ℕ),
      (stopOp s sched).board =
        (reset_servos s.cal 0
          (sched_run { s with stopEvent := true } sched).board).1 ∧
      (∀ ch : ℤ, (ch = 0 ∨ ch = 1 ∨ ch = 2 ∨ ch = 3) →
        0 ≤ angle_to_duty (map_angle (s.cal ch) 90) →
        angle_to_duty (map_angle (s.cal ch) 90) ≤ 100 →
        (stopOp s sched).board (ch + 1) =
          some (angle_to_duty (map_angle (s.cal ch) 90))) ∧
      (∀ sched2 : List ℕ, s.threads = [] →
        (stopOp s sched).board = (reset_servos s.cal 0 s.board).1 ∧
        (stopOp (stopOp s sched) sched2).board = (stopOp s sched).board) := by
  intro s sched
  have hb : (stopOp s sched).board =
      (reset_servos s.cal 0
        (sched_run { s with stopEvent := true } sched).board).1 := by
    show (reset_servos (sched_run { s with stopEvent := true } sched).cal 0
      (sched_run { s with stopEvent := true } sched).board).1 = _
    rw [sched_run_cal]
  refine ⟨hb, ?_, ?_⟩
  · intro ch hch hd0 hd1
    rw [hb, reset_board]
    rcases hch with rfl | rfl | rfl | rfl <;>
      · simp only [set_pwm_duty_apply]
        norm_num [hd0, hd1]
  · intro sched2 h
    have hstop : ∀ (s' : Sys) (L : List ℕ), s'.threads = [] →
        stopOp s' L = { s' with
          stopEvent := true
          board := (reset_servos s'.cal 0 s'.board).1
          trace := s'.trace ++ (reset_servos s'.cal 0 s'.board).2 } := by
      intro s' L h'
      have hrun : sched_run { s' with stopEvent := true } L =
          { s' with stopEvent := true } :=
        sched_run_no_threads { s' with stopEvent := true } h' L
      simp only [stopOp, hrun]
    have h1 := hstop s sched h
    refine ⟨by rw [h1], ?_⟩
    have hthreads2 : (stopOp s sched).threads = [] := by rw [h1]; exact h
    have h2 := hstop (stopOp s sched) sched2 hthreads2
    rw [h2, h1]
    exact reset_board_idem s.cal 0 0 s.board

/-- Concrete system for the C3 witness: idle controller, no calibration. -/
def c3Sys : Sys :=
  { cal := fun _ => none, obstacleInstalled := false, obstacleVal := false,
    stopEvent := false, board := fun _ => none, threads := [], trace := [] }

/-- Concrete system for the C3 witness's unconditional limb: a walk gait
thread is live and paused mid-iteration, and the stop's join makes no
progress (timeout) — the thread survives `stop()`, yet the stand pose is
still commanded. -/
def c3RSys : Sys :=
  { cal := fun _ => none, obstacleInstalled := false, obstacleVal := false,
    stopEvent := false, board := fun _ => none,
    threads := [⟨1, gaitBody .walk "normal",
      [GaitAction.phase [(0, 90), (1, 90)]]⟩],
    trace := [] }

/-- Witness for C3: the stand-pose command lands even with a live,
unjoined gait thread (`c3RSys`, empty join schedule), and stop is
idempotent on the idle controller (`c3Sys`). -/
theorem C3_stop_idempotent_witness :
    ((stopOp c3RSys []).threads.map ThreadSt.tid = [1]) ∧
    (0 ≤ angle_to_duty (map_angle (c3RSys.cal 0) 90) ∧
      angle_to_duty (map_angle (c3RSys.cal 0) 90) ≤ 100) ∧
    ((stopOp c3RSys []).board (0 + 1) =
      some (angle_to_duty (map_angle (c3RSys.cal 0) 90))) ∧
    (c3Sys.threads = []) ∧
    (stopOp (stopOp c3Sys []) []).board = (stopOp c3Sys []).board :=
  ⟨rfl,
    ⟨by norm_num [c3RSys, map_angle, angle_to_duty],
      by norm_num [c3RSys, map_angle, angle_to_duty]⟩,
    (C3_stop_idempotent c3RSys []).2.1 0 (Or.inl rfl)
      (by norm_num [c3RSys, map_angle, angle_to_duty])
      (by norm_num [c3RSys, map_angle, angle_to_duty]),
    rfl,
    ((C3_stop_idempotent c3Sys []).2.2 [] rfl).2⟩

/-- Concrete system for the C8 counterexample: an idle-at-gate walk gait
thread is live, cancellation signal clear. -/
def c8Sys : Sys :=
  { cal := fun _ => none, obstacleInstalled := false, obstacleVal := false,
    stopEvent := false, board := fun _ => none,
    threads := [⟨1, gaitBody .walk "normal", []⟩], trace := [] }

/-- C8 counterexample: `turn_left_step`/`turn_right_step` invoked while a
walk gait is live DO set the cancellation signal (it goes from `false` to
`true` and stays set) and DO stop and join the running gait loop (the
thread is gone afterwards) — the claim that they perform no stop/join and
leave the signal unchanged is false. -/
theorem C8_turn_step_stops_gait_counterexample :
    c8Sys.stopEvent = false ∧ c8Sys.threads.map ThreadSt.tid = [1] ∧
    (turn_left_step "normal" c8Sys [1]).stopEvent = true ∧
    (turn_left_step "normal" c8Sys [1]).threads = [] ∧
    (turn_right_step "normal" c8Sys [1]).stopEvent = true ∧
    (turn_right_step "normal" c8Sys [1]).threads = [] := by
  refine ⟨rfl, rfl, ?_, ?_, ?_, ?_⟩ <;> decide

/-- C8 amended: the turn steps DO self-serialize — each first runs the
full `stop()` protocol (so the cancellation signal ends set, not
unchanged) and only then issues its three phases synchronously on the
caller context: the phases spawn nothing (the thread set is exactly what
the stop protocol left), and every command beyond the stop protocol's is
tagged with the caller context (tag 0). -/
theorem C8_amended_turn_steps_self_serialize :
    ∀ (speed : String) (s : Sys) (sched : List ℕ),
      turn_left_step speed s sched =
        applyPhases (stopOp s sched) (turnLeftPhases (get_walk_params speed).2.2) ∧
      turn_right_step speed s sched =
        applyPhases (stopOp s sched) (turnRightPhases (get_walk_params speed).2.2) ∧
      (turn_left_step speed s sched).stopEvent = true ∧
      (turn_right_step speed s sched).stopEvent = true ∧
      (turn_left_step speed s sched).threads = (stopOp s sched).threads ∧
      (turn_right_step speed s sched).threads = (stopOp s sched).threads ∧
      (∀ e ∈ (turn_left_step speed s sched).trace,
        e ∈ (stopOp s sched).trace ∨ e.1 = 0) ∧
      (∀ e ∈ (turn_right_step speed s sched).trace,
        e ∈ (stopOp s sched).trace ∨ e.1 = 0) := by
  intro speed s sched
  refine ⟨rfl, rfl, ?_, ?_, ?_, ?_, ?_, ?_⟩
  · show (applyPhases (stopOp s sched) _).stopEvent = true
    rw [applyPhases_stopEvent, stopOp_stopEvent]
  · show (applyPhases (stopOp s sched) _).stopEvent = true
    rw [applyPhases_stopEvent, stopOp_stopEvent]
  · exact applyPhases_threads _ (stopOp s sched)
  · exact applyPhases_threads _ (stopOp s sched)
  · exact applyPhases_trace _ (stopOp s sched)
  · exact applyPhases_trace _ (stopOp s sched)

/-- Witness for the amended C8: on the concrete system with a live walk
gait, the first phase command of `turn_left_step` (leg servo to 125) is
in the trace and is tagged with the caller context, the cancellation
signal ends set, and the phases spawned no thread. -/
theorem C8_amended_turn_steps_self_serialize_witness :
    (((0 : ℕ), (1 : ℤ), angle_to_duty 125) ∈
      (turn_left_step "normal" c8Sys [1]).trace) ∧
    (((0 : ℕ), (1 : ℤ), angle_to_duty 125) ∈ (stopOp c8Sys [1]).trace ∨
      ((0 : ℕ), (1 : ℤ), angle_to_duty 125).1 = 0) ∧
    (turn_left_step "normal" c8Sys [1]).stopEvent = true ∧
    (turn_left_step "normal" c8Sys [1]).threads = (stopOp c8Sys [1]).threads := by
  have hmem : ((0 : ℕ), (1 : ℤ), angle_to_duty 125) ∈
      (turn_left_step "normal" c8Sys [1]).trace := by
    exact List.mem_cons_of_mem _ (List.mem_cons_of_mem _
      (List.mem_cons_of_mem _ (List.mem_cons_of_mem _
        (List.mem_cons_self _ _))))
  have H := C8_amended_turn_steps_self_serialize "normal" c8Sys [1]
  exact ⟨hmem, H.2.2.2.2.2.2.1 _ hmem, H.2.2.1, H.2.2.2.2.1⟩

/-- Concrete system for the C1 counterexample: a rotate-left gait thread
at its loop gate, with an obstacle predicate installed and reporting an
obstruction. -/
def c1Sys : Sys :=
  { cal := fun _ => none, obstacleInstalled := true, obstacleVal := true,
    stopEvent := false, board := fun _ => none,
    threads := [⟨1, gaitBody .rotateLeft "normal", []⟩], trace := [] }

/-- C1 counterexample: the rotate-left loop never consults the obstacle
predicate — with the predicate installed and reporting an obstruction, the
first iteration still issues its phase writes (to driver channels 3 and 4,
tagged with the gait thread) and the loop does not exit. -/
theorem C1_rotate_ignores_obstacle_counterexample :
    c1Sys.obstacleInstalled = true ∧ c1Sys.obstacleVal = true ∧
    (sched_run c1Sys [1, 1]).threads.map ThreadSt.tid = [1] ∧
    (sched_run c1Sys [1, 1]).trace.map (fun e => (e.1, e.2.1)) =
      [(1, 3), (1, 4)] := by
  refine ⟨rfl, rfl, ?_, ?_⟩ <;> decide

/-- C1 amended: the walk, stepback, run and runback loops do begin every
iteration with the obstacle check, and on an obstruction they reset all
servos to the stand pose and exit without issuing that iteration's phase
writes; the two rotate loops perform no obstacle check at all. -/
theorem C1_amended_forward_gaits_check_obstacle :
    ∀ g : GaitName,
      (g = GaitName.walk ∨ g = GaitName.stepback ∨ g = GaitName.run ∨
        g = GaitName.runback) →
    ∀ (speed : String) (cal : CalTable) (b : Board) (tr : List Cmd) (i : ℕ),
      gaitBody g speed = GaitAction.obstacleGate :: (gaitBody g speed).tail ∧
      (sched_run ⟨cal, true, true, false, b, [⟨i, gaitBody g speed, []⟩], tr⟩
        [i, i]).threads = [] ∧
      (sched_run ⟨cal, true, true, false, b, [⟨i, gaitBody g speed, []⟩], tr⟩
        [i, i]).board = (reset_servos cal i b).1 ∧
      (sched_run ⟨cal, true, true, false, b, [⟨i, gaitBody g speed, []⟩], tr⟩
        [i, i]).trace = tr ++ (reset_servos cal i b).2 := by
  intro g hg speed cal b tr i
  rcases hg with rfl | rfl | rfl | rfl <;>
    refine ⟨rfl, ?_, ?_, ?_⟩ <;>
      simp [sched_run, step, stepThreadCore, gaitBody, walkBody, stepbackBody,
        runBody, runbackBody]

/-- Concrete system for the C1 witness: a walk gait thread at its loop
gate with the obstacle predicate tripping. -/
def c1WSys : Sys :=
  ⟨fun _ => none, true, true, false, fun _ => none,
    [⟨1, gaitBody .walk "normal", []⟩], []⟩

/-- Witness for the amended C1 on a concrete walk gait. -/
theorem C1_amended_forward_gaits_check_obstacle_witness :
    (GaitName.walk = GaitName.walk ∨ GaitName.walk = GaitName.stepback ∨
      GaitName.walk = GaitName.run ∨ GaitName.walk = GaitName.runback) ∧
    (gaitBody GaitName.walk "normal" =
        GaitAction.obstacleGate :: (gaitBody GaitName.walk "normal").tail ∧
      (sched_run c1WSys [1, 1]).threads = [] ∧
      (sched_run c1WSys [1, 1]).board =
        (reset_servos (fun _ => none) 1 (fun _ => none)).1 ∧
      (sched_run c1WSys [1, 1]).trace =
        [] ++ (reset_servos (fun _ => none) 1 (fun _ => none)).2) :=
  ⟨Or.inl rfl,
    C1_amended_forward_gaits_check_obstacle GaitName.walk (Or.inl rfl)
      "normal" (fun _ => none) (fun _ => none) [] 1⟩

/-- Concrete system for the C2 counterexample: a walk gait thread paused
inside an iteration (its next action is a phase, a genuine suffix of the
walk body), about to be displaced by a run gait whose stop/join makes no
progress (join timeout). -/
def c2Sys : Sys :=
  { cal := fun _ => none, obstacleInstalled := false, obstacleVal := false,
    stopEvent := false, board := fun _ => none,
    threads := [⟨1, gaitBody .walk "normal",
      [GaitAction.phase [(0, 90), (1, 90)]]⟩],
    trace := [] }

/-- C2 counterexample: when the old gait thread does not exit within the
bounded join (here: it makes no progress before the join gives up), the
cancellation signal is cleared and the stale walk thread survives the
launch of the run gait (both thread ids live), and its writes (tag 1)
appear on the board interleaved after the new gait's writes (tag 2) —
refuting "after B launches, only B's phase writes appear". -/
theorem C2_stale_gait_interleaves_counterexample :
    (start_thread c2Sys [] 2 GaitName.run "normal").threads.map ThreadSt.tid =
      [1, 2] ∧
    (sched_run (start_thread c2Sys [] 2 GaitName.run "normal") [2, 1]).trace.map
      (fun e => e.1) = [0, 0, 0, 0, 2, 2, 1, 1] ∧
    (sched_run (start_thread c2Sys [] 2 GaitName.run "normal") [2, 1]).threads.map
      ThreadSt.tid = [2, 1] := by
  refine ⟨?_, ?_, ?_⟩ <;> decide

/-- C2 amended: `_start_thread` stops (set signal, bounded join, reset),
clears the signal, then launches; and PROVIDED the join succeeded (the
old gait context exited during the stop), the new gait context is the
only live one and every board command issued after the launch carries the
new gait's tag — mutual exclusion holds only under that proviso. -/
theorem C2_amended_exclusive_after_join :
    ∀ (s : Sys) (sched : List ℕ) (newTid : ℕ) (g : GaitName) (speed : String)
      (sched2 : List ℕ),
      (stopOp s sched).threads = [] →
      (start_thread s sched newTid g speed).stopEvent = false ∧
      (start_thread s sched newTid g speed).threads =
        [⟨newTid, gaitBody g speed, gaitPrologue g⟩] ∧
      (∀ e ∈ (sched_run (start_thread s sched newTid g speed) sched2).trace,
        e ∈ (start_thread s sched newTid g speed).trace ∨ e.1 = newTid) := by
  intro s sched newTid g speed sched2 h
  have hS : (start_thread s sched newTid g speed).threads =
      [⟨newTid, gaitBody g speed, gaitPrologue g⟩] := by
    show (stopOp s sched).threads ++ [⟨newTid, gaitBody g speed, gaitPrologue g⟩] = _
    rw [h]
    rfl
  refine ⟨rfl, hS, ?_⟩
  intro e he
  have hall : ∀ t ∈ (start_thread s sched newTid g speed).threads,
      t.tid = newTid := by
    rw [hS]
    intro t ht
    rcases List.mem_singleton.mp ht with rfl
    rfl
  exact sched_run_trace_src sched2 _ newTid hall e he

/-- Concrete system for the C2 witness: no gait running at all, so the
stop/join trivially succeeds. -/
def c2WSys : Sys :=
  { cal := fun _ => none, obstacleInstalled := false, obstacleVal := false,
    stopEvent := false, board := fun _ => none, threads := [], trace := [] }

/-- Witness for the amended C2: after launching a run gait on an idle
controller, a command the new thread issued is tagged with its id. -/
theorem C2_amended_exclusive_after_join_witness :
    ((stopOp c2WSys []).threads = []) ∧
    (((2 : ℕ), (1 : ℤ), angle_to_duty 0) ∈
      (sched_run (start_thread c2WSys [] 2 GaitName.run "normal") [2]).trace) ∧
    (((2 : ℕ), (1 : ℤ), angle_to_duty 0) ∈
        (start_thread c2WSys [] 2 GaitName.run "normal").trace ∨
      ((2 : ℕ), (1 : ℤ), angle_to_duty 0).1 = 2) := by
  have hmem : ((2 : ℕ), (1 : ℤ), angle_to_duty 0) ∈
      (sched_run (start_thread c2WSys [] 2 GaitName.run "normal") [2]).trace := by
    exact List.mem_cons_of_mem _ (List.mem_cons_of_mem _
      (List.mem_cons_of_mem _ (List.mem_cons_of_mem _
        (List.mem_cons_self _ _))))
  exact ⟨rfl, hmem,
    (C2_amended_exclusive_after_join c2WSys [] 2 GaitName.run "normal" [2]
      rfl).2.2 _ hmem⟩

/-- C6: the installed obstacle predicate returns true iff the sample was a
valid reading strictly inside (0, 5) cm; the timeout and fault paths
return the negative sentinels -1.0 / -2.0, on which the predicate is
false (fail-open) — and the predicate is a total function (no error
propagation). -/
theorem C6_obstacle_predicate_fail_open :
    ∀ e : SensorEnv,
      (check_obstacle e = true ↔
        (validReading e = true ∧ 0 < measure_distance e ∧
          measure_distance e < 5)) ∧
      ((e.initialized = false ∨ (e.gpioAvailable = true ∧ e.fault = true)) →
        measure_distance e = -2 ∧ check_obstacle e = false) ∧
      ((e.initialized = true ∧ e.gpioAvailable = true ∧ e.fault = false ∧
          e.echoTimeout = true) →
        measure_distance e = -1 ∧ check_obstacle e = false) := by
  intro e
  obtain ⟨init, gpio, timeout, fault, dur⟩ := e
  refine ⟨?_, ?_, ?_⟩ <;>
    cases init <;> cases gpio <;> cases fault <;> cases timeout <;>
      simp [check_obstacle, measure_distance, validReading] <;> norm_num

/-- Sensor environment with a GPIO fault during measurement. -/
def c6Fault : SensorEnv := ⟨true, true, false, true, 0⟩

/-- Sensor environment whose echo wait times out. -/
def c6Timeout : SensorEnv := ⟨true, true, true, false, 0⟩

/-- Witness for C6 on the fault and timeout sentinel paths. -/
theorem C6_obstacle_predicate_fail_open_witness :
    (c6Fault.initialized = false ∨
      (c6Fault.gpioAvailable = true ∧ c6Fault.fault = true)) ∧
    (measure_distance c6Fault = -2 ∧ check_obstacle c6Fault = false) ∧
    (c6Timeout.initialized = true ∧ c6Timeout.gpioAvailable = true ∧
      c6Timeout.fault = false ∧ c6Timeout.echoTimeout = true) ∧
    (measure_distance c6Timeout = -1 ∧ check_obstacle c6Timeout = false) := by
  refine ⟨Or.inr ⟨rfl, rfl⟩, ?_, ⟨rfl, rfl, rfl, rfl⟩, ?_⟩
  · exact (C6_obstacle_predicate_fail_open c6Fault).2.1 (Or.inr ⟨rfl, rfl⟩)
  · exact (C6_obstacle_predicate_fail_open c6Timeout).2.2 ⟨rfl, rfl, rfl, rfl⟩

end Ninja
